import Mathlib

/-
Verification development for the trade-report ingestion and aggregation
pipeline of `analyze.py` (trading-analyzer-pro-v2).

Text is modelled as `List Char`; raw file content as `List Nat` (bytes);
Python floats are modelled as exact rationals (`Rat`), so non-finite
float literals (inf, nan) are treated as unparseable; Python regular
expression classes are modelled with the CPython character tables
restricted to the code points the patterns can meet in this code
(`\s` is the CPython str whitespace table, `\d` and `\w` their ASCII
parts).  Scanning functions that move through the text take an explicit
fuel argument; every wrapper passes `length + 1`, and every recursive
call consumes at least one character of input, so the fuel never runs
out on the wrapped calls.
-/

namespace Analyze

/-- CPython whitespace table for `str` patterns and `str.strip`. -/
def pySpace (c : Char) : Bool :=
  c = ' ' || c = '\t' || c = '\n' || c.toNat = 11 || c.toNat = 12 || c.toNat = 13 ||
  (28 ≤ c.toNat && c.toNat ≤ 31) || c.toNat = 133 || c.toNat = 160 ||
  c.toNat = 5760 || (8192 ≤ c.toNat && c.toNat ≤ 8202) || c.toNat = 8232 ||
  c.toNat = 8233 || c.toNat = 8239 || c.toNat = 8287 || c.toNat = 12288

/-- ASCII decimal digit, the part of `\d` this report format can meet. -/
def isDig (c : Char) : Bool := '0' ≤ c && c ≤ '9'

/-- ASCII word character, the part of `\w` (for `\b`) this format can meet. -/
def isWordChar (c : Char) : Bool :=
  isDig c || ('a' ≤ c && c ≤ 'z') || ('A' ≤ c && c ≤ 'Z') || c = '_'

/-- Case folding for the IGNORECASE matches (the patterns are ASCII). -/
def foldC (c : Char) : Char :=
  if 'A' ≤ c && c ≤ 'Z' then Char.ofNat (c.toNat + 32) else c

def digVal (c : Char) : Nat := c.toNat - 48

/-- Last element with a default, used for Python negative indexing. -/
def lastD {α : Type} : List α → α → α
  | [], dflt => dflt
  | [x], _ => x
  | _ :: y :: rest, dflt => lastD (y :: rest) dflt

/-- Exact case-sensitive list-of-chars match of `pat` at the head of `s`. -/
def startsWith : List Char → List Char → Bool
  | [], _ => true
  | _ :: _, [] => false
  | p :: ps, c :: cs => p = c && startsWith ps cs

/-- Caseless match of `pat` at the head of `s`. -/
def startsWithFold : List Char → List Char → Bool
  | [], _ => true
  | _ :: _, [] => false
  | p :: ps, c :: cs => foldC p = foldC c && startsWithFold ps cs

/-- Python `pat in s` (case-sensitive substring containment). -/
def hasSubstr : List Char → List Char → Bool
  | s, pat =>
    if startsWith pat s then true
    else match s with
      | [] => false
      | _ :: cs => hasSubstr cs pat

/-- Collapse every `\s+` run to one space; `prev` records whether the
previously consumed character was whitespace (mirrors `re.sub(r"\s+", " ", s)`,
after the `\xa0` pre-replacement which is subsumed because `\xa0` is in the
whitespace table and is replaced by a space). -/
def collapseWsAux : Bool → List Char → List Char
  | _, [] => []
  | prev, c :: cs =>
    if pySpace c then
      if prev then collapseWsAux true cs else ' ' :: collapseWsAux true cs
    else c :: collapseWsAux false cs

/-- Python `str.strip()` restricted to the characters the collapse can leave
at the ends (single spaces); stated over the general whitespace table. -/
def stripEnds (s : List Char) : List Char :=
  ((s.dropWhile pySpace).reverse.dropWhile pySpace).reverse

/-- `_norm`: replace nbsp by space, collapse whitespace runs, strip ends. -/
def norm (s : List Char) : List Char :=
  stripEnds (collapseWsAux false s)

/-- Remove every space and comma (`s.replace(" ", "").replace(",", "")`). -/
def dropSpacesCommas (s : List Char) : List Char :=
  s.filter (fun c => ¬ (c = ' ' || c = ','))

/-- Parse a digit run where single underscores may stand between digits
(CPython numeric literal digit parts).  Returns the digits (underscores
removed) and the rest, or none when no leading digit. -/
def digitRun : List Char → Option (List Char × List Char)
  | c :: '_' :: d :: ds =>
    if isDig c then
      if isDig d then
        match digitRun (d :: ds) with
        | some (more, rest) => some (c :: more, rest)
        | none => some ([c], '_' :: d :: ds)
      else some ([c], '_' :: d :: ds)
    else none
  | c :: cs =>
    if isDig c then
      match digitRun cs with
      | some (more, rest) => some (c :: more, rest)
      | none => some ([c], cs)
    else none
  | [] => none
termination_by s => s.length
decreasing_by all_goals simp_arith

def digitsToNat (ds : List Char) : Nat :=
  ds.foldl (fun a c => a * 10 + digVal c) 0

/-- Value of an integer part and a fraction part as an exact rational. -/
def mantissa (ip fp : List Char) : ℚ :=
  (digitsToNat ip : ℚ) + (digitsToNat fp : ℚ) / ((10 : ℚ) ^ fp.length)

/-- Python `float(s)` on a string with no whitespace: optional sign, then
digits with optional fraction, or a leading-dot fraction, with an optional
exponent; the whole string must be consumed.  Non-finite literals
(`inf`, `nan`) have no rational value and yield none. -/
def pyFloat (s : List Char) : Option ℚ :=
  let core : List Char → Option (ℚ × List Char) := fun t =>
    match digitRun t with
    | some (ip, rest) =>
      match rest with
      | '.' :: rest2 =>
        match digitRun rest2 with
        | some (fp, rest3) => some (mantissa ip fp, rest3)
        | none => some (mantissa ip [], rest2)
      | _ => some (mantissa ip [], rest)
    | none =>
      match t with
      | '.' :: rest2 =>
        match digitRun rest2 with
        | some (fp, rest3) => some (mantissa [] fp, rest3)
        | none => none
      | _ => none
  let expPart : List Char → Option (ℤ × List Char) := fun t =>
    match t with
    | e :: rest =>
      if e = 'e' || e = 'E' then
        match rest with
        | '+' :: rest2 =>
          match digitRun rest2 with
          | some (ds, rest3) => some ((digitsToNat ds : ℤ), rest3)
          | none => none
        | '-' :: rest2 =>
          match digitRun rest2 with
          | some (ds, rest3) => some (-(digitsToNat ds : ℤ), rest3)
          | none => none
        | _ =>
          match digitRun rest with
          | some (ds, rest3) => some ((digitsToNat ds : ℤ), rest3)
          | none => none
      else none
    | [] => none
  let signed : List Char → Option (Bool × List Char) := fun t =>
    match t with
    | '+' :: rest => some (false, rest)
    | '-' :: rest => some (true, rest)
    | _ => some (false, t)
  match signed s with
  | some (neg, t) =>
    match core t with
    | some (v, rest) =>
      let fin : ℚ × List Char → Option ℚ := fun p =>
        if p.2 = [] then some (if neg then -p.1 else p.1) else none
      match expPart rest with
      | some (ex, rest2) => fin (v * (10 : ℚ) ^ ex, rest2)
      | none => fin (v, rest)
    | none => none
  | none => none

/-- `_parse_money`: normalize, drop spaces and commas, then `float(...)`,
yielding none on failure. -/
def parse_money (s : List Char) : Option ℚ :=
  let t := dropSpacesCommas (norm s)
  if t = [] then none else pyFloat t

/-- Leftmost match of `-?\d+`: at the first position where a digit starts,
or where a minus sign is directly followed by a digit, take the maximal
digit run (no underscores: this is `re`, not `float`). -/
def intSearch : List Char → Option ℤ
  | [] => none
  | c :: cs =>
    if isDig c then
      some ((digitsToNat ((c :: cs).takeWhile isDig) : ℤ))
    else if c = '-' then
      match cs with
      | d :: _ =>
        if isDig d then some (-(digitsToNat (cs.takeWhile isDig) : ℤ))
        else intSearch cs
      | [] => none
    else intSearch cs

/-- `_parse_int`: normalize, drop spaces and commas, first `-?\d+` match. -/
def parse_int (s : List Char) : Option ℤ :=
  let t := dropSpacesCommas (norm s)
  if t = [] then none else intSearch t

/-- `re.sub(r"<[^>]+>", "", s)`: from each `<`, if a `>` follows with at
least one character in between, delete through it; a bare `<>` or an
unterminated `<` is left in place (the pattern does not match there). -/
def removeTagsF : Nat → List Char → List Char
  | 0, s => s
  | _ + 1, [] => []
  | fuel + 1, '<' :: cs =>
    let pre := cs.takeWhile (fun c => c ≠ '>')
    match cs.drop pre.length with
    | '>' :: rest =>
      if pre = [] then '<' :: removeTagsF fuel cs else removeTagsF fuel rest
    | _ => '<' :: removeTagsF fuel cs
  | fuel + 1, c :: cs => c :: removeTagsF fuel cs

/-- `_strip_tags`. -/
def strip_tags (s : List Char) : List Char :=
  norm (removeTagsF (s.length + 1) s)

/-- Timestamp record for parsed `YYYY.MM.DD HH:MM:SS` tokens. -/
structure DT where
  year : Nat
  month : Nat
  day : Nat
  hour : Nat
  minute : Nat
  second : Nat
deriving DecidableEq, Repr

def isLeap (y : Nat) : Bool := y % 4 = 0 && (y % 100 ≠ 0 || y % 400 = 0)

def daysInMonth (y m : Nat) : Nat :=
  if m = 2 then (if isLeap y then 29 else 28)
  else if m = 4 || m = 6 || m = 9 || m = 11 then 30
  else 31

/-- `_parse_dt`: `datetime.strptime(s, "%Y.%m.%d %H:%M:%S")` on the
normalized token, none on failure.  The function is only ever applied to
matches of the date-time pattern, so the zero-padded 19-character shape is
the shape `strptime` can meet; field ranges are validated as `datetime`
does (year at least 1, real calendar day, 24-hour clock). -/
def parse_dt (s0 : List Char) : Option DT :=
  match norm s0 with
  | [y1, y2, y3, y4, p1, m1, m2, p2, d1, d2, sp, h1, h2, c1, n1, n2, c2, s1, s2] =>
    if p1 = '.' && p2 = '.' && sp = ' ' && c1 = ':' && c2 = ':' &&
       isDig y1 && isDig y2 && isDig y3 && isDig y4 && isDig m1 && isDig m2 &&
       isDig d1 && isDig d2 && isDig h1 && isDig h2 && isDig n1 && isDig n2 &&
       isDig s1 && isDig s2 then
      let y := digitsToNat [y1, y2, y3, y4]
      let mo := digitsToNat [m1, m2]
      let d := digitsToNat [d1, d2]
      let h := digitsToNat [h1, h2]
      let mi := digitsToNat [n1, n2]
      let se := digitsToNat [s1, s2]
      if 1 ≤ y && 1 ≤ mo && mo ≤ 12 && 1 ≤ d && d ≤ daysInMonth y mo &&
         h ≤ 23 && mi ≤ 59 && se ≤ 59 then
        some ⟨y, mo, d, h, mi, se⟩
      else none
    else none
  | _ => none

/-- Chronological sort key (mixed radix; fields of a parsed `DT` are in
range, so the key order is the timestamp order). -/
def dtKey (d : DT) : Nat :=
  ((((d.year * 13 + d.month) * 32 + d.day) * 24 + d.hour) * 60 + d.minute) * 60 + d.second

/-- Match the fixed 19-character date-time shape at the head of the list,
returning the token. -/
def matchDT : List Char → Option (List Char)
  | y1 :: y2 :: y3 :: y4 :: '.' :: m1 :: m2 :: '.' :: d1 :: d2 :: ' ' ::
      h1 :: h2 :: ':' :: n1 :: n2 :: ':' :: s1 :: s2 :: _ =>
    if isDig y1 && isDig y2 && isDig y3 && isDig y4 && isDig m1 && isDig m2 &&
       isDig d1 && isDig d2 && isDig h1 && isDig h2 && isDig n1 && isDig n2 &&
       isDig s1 && isDig s2 then
      some [y1, y2, y3, y4, '.', m1, m2, '.', d1, d2, ' ',
            h1, h2, ':', n1, n2, ':', s1, s2]
    else none
  | _ => none

/-- `_DT_RE.findall`: left-to-right non-overlapping matches of
`\b(\d{4}\.\d{2}\.\d{2} \d{2}:\d{2}:\d{2})\b`; `prev` is the character
before the current position (a non-word sentinel at the start). -/
def dtScanF : Nat → Char → List Char → List (List Char)
  | 0, _, _ => []
  | _ + 1, _, [] => []
  | fuel + 1, prev, c :: cs =>
    if ¬ isWordChar prev then
      match matchDT (c :: cs) with
      | some tok =>
        let rest := (c :: cs).drop 19
        if (match rest with | [] => true | r :: _ => ¬ isWordChar r) then
          tok :: dtScanF fuel (lastD tok ' ') rest
        else dtScanF fuel c cs
      | none => dtScanF fuel c cs
    else dtScanF fuel c cs

def dt_findall (s : List Char) : List (List Char) :=
  dtScanF (s.length + 1) ' ' s

/-- Split at the first caseless occurrence of `</name>`, returning the text
before it and the text after it. -/
def splitAtCloseFold (name : List Char) : List Char → Option (List Char × List Char)
  | [] => none
  | c :: cs =>
    let pat := '<' :: '/' :: name ++ ['>']
    if startsWithFold pat (c :: cs) then some ([], (c :: cs).drop pat.length)
    else
      match splitAtCloseFold name cs with
      | some (pre, post) => some (c :: pre, post)
      | none => none

/-- `re.findall(r"<name\b[^>]*>(.*?)</name>", s, IGNORECASE | DOTALL)`:
left-to-right, non-overlapping; the opening tag is the caseless tag name
followed by a non-word character, any run of non-`>` characters and `>`;
the body is everything up to the first caseless closing tag. -/
def tagScanF (name : List Char) : Nat → List Char → List (List Char)
  | 0, _ => []
  | _ + 1, [] => []
  | fuel + 1, c :: cs =>
    let s := c :: cs
    let opening := '<' :: name
    let afterOpen := s.drop opening.length
    if startsWithFold opening s &&
       (match afterOpen with | [] => true | x :: _ => ¬ isWordChar x) then
      let pre := afterOpen.takeWhile (fun x => x ≠ '>')
      match afterOpen.drop pre.length with
      | '>' :: inner0 =>
        match splitAtCloseFold name inner0 with
        | some (inner, rest) => inner :: tagScanF name fuel rest
        | none => tagScanF name fuel cs
      | _ => tagScanF name fuel cs
    else tagScanF name fuel cs

def tr_rows (s : List Char) : List (List Char) :=
  tagScanF (("tr").data) (s.length + 1) s

def td_cells (s : List Char) : List (List Char) :=
  tagScanF (("td").data) (s.length + 1) s

/-- Does `<b>\s*word\s*</b>` (caseless) match at the head of `s`? -/
def headingAt (word : List Char) (s : List Char) : Bool :=
  startsWithFold (("<b>").data) s &&
  (let t := (s.drop 3).dropWhile pySpace
   startsWithFold word t &&
   startsWithFold (("</b>").data) ((t.drop word.length).dropWhile pySpace))

/-- `re.search` for a bolded heading: suffix of the text from the start of
the leftmost match. -/
def findHeadingSuffix (word : List Char) : Nat → List Char → Option (List Char)
  | 0, _ => none
  | _ + 1, [] => none
  | fuel + 1, c :: cs =>
    if headingAt word (c :: cs) then some (c :: cs)
    else findHeadingSuffix word fuel cs

/-- As `findHeadingSuffix` but also returns the text before the match. -/
def findHeadingSplit (word : List Char) : Nat → List Char → Option (List Char × List Char)
  | 0, _ => none
  | _ + 1, [] => none
  | fuel + 1, c :: cs =>
    if headingAt word (c :: cs) then some ([], c :: cs)
    else
      match findHeadingSplit word fuel cs with
      | some (pre, post) => some (c :: pre, post)
      | none => none

/-- `_extract_positions_block`: slice from the `Positions` heading to the
next `Results` heading (or to the end). -/
def extract_positions_block (html : List Char) : List Char :=
  match findHeadingSuffix (("Positions").data) (html.length + 1) html with
  | none => []
  | some tail =>
    match findHeadingSplit (("Results").data) (tail.length + 1) tail with
    | some (pre, _) => pre
    | none => tail

/-- Canonical closed-trade record built by the positions parser
(dict keys `symbol`, `profit`, `t`). -/
structure TradeRow where
  symbol : List Char
  profit : ℚ
  t : Option DT
deriving DecidableEq, Repr

/-- The two-column-spanning cell marker test (case-sensitive `in`). -/
def hasColspan2 (s : List Char) : Bool :=
  hasSubstr s (("colspan=\"2\"").data) || hasSubstr s (("colspan=\x272\x27").data)

/-- Outcome of the per-row body of `_parse_positions_rows_for_charts`:
a row that fails the structural filter (colspan marker, date-time token,
six cells) is not counted at all; a structurally accepted row is counted
as seen, and yields a trade only when the third cell is non-empty and the
last cell parses as money. -/
inductive RowOutcome where
  | notCandidate : RowOutcome
  | skippedRow : RowOutcome
  | parsedRow : TradeRow → RowOutcome
deriving DecidableEq

def rowOutcome (tr : List Char) : RowOutcome :=
  if ¬ hasColspan2 tr then .notCandidate
  else if dt_findall tr = [] then .notCandidate
  else if (td_cells tr).length < 6 then .notCandidate
  else if strip_tags ((td_cells tr).getD 2 []) = [] then .skippedRow
  else
    match parse_money (strip_tags (lastD (td_cells tr) [])) with
    | none => .skippedRow
    | some p =>
      .parsedRow ⟨strip_tags ((td_cells tr).getD 2 []), p,
        parse_dt (lastD (dt_findall tr) [])⟩

/-- The row loop: trades in row order plus (rows seen, rows parsed). -/
def posFold : List (List Char) → List TradeRow × Nat × Nat
  | [] => ([], 0, 0)
  | tr :: rest =>
    let acc := posFold rest
    match rowOutcome tr with
    | .notCandidate => acc
    | .skippedRow => (acc.1, acc.2.1 + 1, acc.2.2)
    | .parsedRow t => (t :: acc.1, acc.2.1 + 1, acc.2.2 + 1)

/-- Diagnostics record of the positions parser. -/
structure PosDbg where
  positions_block_found : Bool
  rows_seen : Nat
  rows_parsed : Nat
deriving DecidableEq, Repr

/-- `_parse_positions_rows_for_charts`. -/
def parse_positions_rows_for_charts (html : List Char) : List TradeRow × PosDbg :=
  let block := extract_positions_block html
  if block = [] then ([], ⟨false, 0, 0⟩)
  else
    let r := posFold (tr_rows block)
    (r.1, ⟨true, r.2.1, r.2.2⟩)

/-- Does `\s*</b>` match here (maximal whitespace run, then the closing
tag; deterministic because `<` is not whitespace)? -/
def wsThenCloseB (s : List Char) : Bool :=
  startsWithFold (("</b>").data) (s.dropWhile pySpace)

/-- Minimal non-empty run of non-`<` characters such that `\s*</b>`
matches right after it (the non-greedy `([^<]+?)\s*</b>` tail). -/
def capFrom : List Char → Option (List Char)
  | [] => none
  | c :: cs =>
    if c = '<' then none
    else if wsThenCloseB cs then some [c]
    else
      match capFrom cs with
      | some more => some (c :: more)
      | none => none

/-- The greedy `\s*` before the capture: try the maximal whitespace run
first and shorten on failure (regex backtracking order). -/
def tryWFrom : Nat → List Char → Option (List Char)
  | w, r =>
    match capFrom (r.drop w) with
    | some cap => some cap
    | none =>
      match w with
      | 0 => none
      | w' + 1 => tryWFrom w' r

/-- `\s*([^<]+?)\s*</b>` applied right after a `<b>`. -/
def bInner (r : List Char) : Option (List Char) :=
  tryWFrom (r.takeWhile pySpace).length r

/-- The non-greedy `.*?<b>…`: try each later `<b>` in turn until the inner
pattern succeeds. -/
def scanBForCap : Nat → List Char → Option (List Char)
  | 0, _ => none
  | _ + 1, [] => none
  | fuel + 1, c :: cs =>
    if startsWithFold (("<b>").data) (c :: cs) then
      match bInner ((c :: cs).drop 3) with
      | some cap => some cap
      | none => scanBForCap fuel cs
    else scanBForCap fuel cs

/-- Caseless label, `\s*`, `</td>` at the head of `s`; on success returns
the rest of the text after the `</td>`. -/
def labelAt (label s : List Char) : Option (List Char) :=
  if startsWithFold label s then
    let t := (s.drop label.length).dropWhile pySpace
    if startsWithFold (("</td>").data) t then some (t.drop 5) else none
  else none

/-- `re.search` over starting positions for the full label pattern. -/
def extractBScan (label : List Char) : Nat → List Char → Option (List Char)
  | 0, _ => none
  | _ + 1, [] => none
  | fuel + 1, c :: cs =>
    match labelAt label (c :: cs) with
    | some rest =>
      match scanBForCap (rest.length + 1) rest with
      | some cap => some cap
      | none => extractBScan label fuel cs
    | none => extractBScan label fuel cs

/-- `_extract_b_after_label`. -/
def extract_b_after_label (html label : List Char) : Option (List Char) :=
  (extractBScan label (html.length + 1) html).map norm

/-- `\(([-+]?\d+(?:\.\d+)?)%\)` at the head of the text, with the captured
number as an exact rational (`float` on the capture always succeeds). -/
def pctAt : List Char → Option ℚ
  | '(' :: rest =>
    let sr : Bool × List Char :=
      match rest with
      | '+' :: r => (false, r)
      | '-' :: r => (true, r)
      | _ => (false, rest)
    let ds := sr.2.takeWhile isDig
    if ds = [] then none
    else
      let rest3 := sr.2.drop ds.length
      let finish : List Char → List Char → Option ℚ := fun fp tail =>
        if startsWith (("%)").data) tail then
          some (if sr.1 then -(mantissa ds fp) else mantissa ds fp)
        else none
      match rest3 with
      | '.' :: rest4 =>
        let fs := rest4.takeWhile isDig
        if fs = [] then finish [] rest3 else finish fs (rest4.drop fs.length)
      | _ => finish [] rest3
  | _ => none

def pctSearch : Nat → List Char → Option ℚ
  | 0, _ => none
  | _ + 1, [] => none
  | fuel + 1, c :: cs =>
    match pctAt (c :: cs) with
    | some v => some v
    | none => pctSearch fuel cs

/-- `_extract_count_pct_after_label`: integer count from the bolded text,
plus the parenthesized percentage when present. -/
def extract_count_pct_after_label (html label : List Char) : Option ℤ × Option ℚ :=
  match extract_b_after_label html label with
  | none => (none, none)
  | some txt => (parse_int txt, pctSearch (txt.length + 1) txt)

/-- Parsed summary fields of `_parse_results_summary`. -/
structure RSummary where
  total_profit : Option ℚ
  total_trades : Option ℤ
  wins : Option ℤ
  losses : Option ℤ
  winrate : Option ℚ
deriving DecidableEq, Repr

/-- `_parse_results_summary`: the four labeled fields, and the win rate
with the labeled percentage taking precedence over the count ratio. -/
def parse_results_summary (html : List Char) : RSummary :=
  let total_profit := parse_money ((extract_b_after_label html (("Total Net Profit:").data)).getD [])
  let total_trades := parse_int ((extract_b_after_label html (("Total Trades:").data)).getD [])
  let wp := extract_count_pct_after_label html (("Profit Trades (% of total):").data)
  let lp := extract_count_pct_after_label html (("Loss Trades (% of total):").data)
  let winrate : Option ℚ :=
    match wp.2 with
    | some pct => some (pct / 100)
    | none =>
      match wp.1, lp.1 with
      | some w, some l =>
        if 0 < w + l then some ((w : ℚ) / ((w : ℚ) + (l : ℚ))) else none
      | _, _ => none
  ⟨total_profit, total_trades, wp.1, lp.1, winrate⟩

/-- Python `round` ties-to-even on an exact rational. -/
def roundHalfEven (q : ℚ) : ℤ :=
  if q - (⌊q⌋ : ℚ) < 1 / 2 then ⌊q⌋
  else if 1 / 2 < q - (⌊q⌋ : ℚ) then ⌊q⌋ + 1
  else if ⌊q⌋ % 2 = 0 then ⌊q⌋ else ⌊q⌋ + 1

/-- Python `round(q, n)` on the exact-rational float model. -/
def pyRound (n : Nat) (q : ℚ) : ℚ :=
  (roundHalfEven (q * (10 : ℚ) ^ n) : ℚ) / (10 : ℚ) ^ n

/-- Strict row order used by the time sort: timestamps ascending, missing
timestamps after all present ones. -/
def ltRow (a b : TradeRow) : Bool :=
  match a.t, b.t with
  | some x, some y => dtKey x < dtKey y
  | some _, none => true
  | none, _ => false

/-- Stable insertion into a sorted list (earlier elements stay first on
equal keys). -/
def insertRow (a : TradeRow) : List TradeRow → List TradeRow
  | [] => [a]
  | b :: bs => if ltRow b a then b :: insertRow a bs else a :: b :: bs

def sortRows : List TradeRow → List TradeRow
  | [] => []
  | a :: rest => insertRow a (sortRows rest)

/-- `df.sort_values(by="t", na_position="last")`, applied only when some
timestamp is present (as in `_build_charts`). -/
def sortIfAnyT (rows : List TradeRow) : List TradeRow :=
  if rows.any (fun r => r.t.isSome) then sortRows rows else rows

structure ECPoint where
  x : Nat
  y : ℚ
deriving DecidableEq, Repr

structure SymPoint where
  symbol : List Char
  profit : ℚ
deriving DecidableEq, Repr

structure HourPoint where
  hour : Nat
  profit : ℚ
deriving DecidableEq, Repr

structure MonthPoint where
  month : List Char
  profit : ℚ
deriving DecidableEq, Repr

/-- Equity-curve loop: full-precision running sum, each point rounded to
two decimals at emission, indices starting at 1. -/
def ecBuild : Nat → ℚ → List ℚ → List ECPoint
  | _, _, [] => []
  | i, cum, p :: ps => ⟨i + 1, pyRound 2 (cum + p)⟩ :: ecBuild (i + 1) (cum + p) ps

/-- Lexicographic order on symbol text (pandas group keys are sorted). -/
def strLt : List Char → List Char → Bool
  | [], [] => false
  | [], _ :: _ => true
  | _ :: _, [] => false
  | a :: as2, b :: bs =>
    if a.toNat < b.toNat then true
    else if b.toNat < a.toNat then false
    else strLt as2 bs

def insertStr (a : List Char) : List (List Char) → List (List Char)
  | [] => [a]
  | b :: bs => if strLt b a then b :: insertStr a bs else a :: b :: bs

def sortStrAsc : List (List Char) → List (List Char)
  | [] => []
  | a :: rest => insertStr a (sortStrAsc rest)

def insertNat (a : Nat) : List Nat → List Nat
  | [] => [a]
  | b :: bs => if b < a then b :: insertNat a bs else a :: b :: bs

def sortNatAsc : List Nat → List Nat
  | [] => []
  | a :: rest => insertNat a (sortNatAsc rest)

/-- Stable descending sort by summed profit (`sort_values(ascending=False)`). -/
def insertDescQ (a : List Char × ℚ) : List (List Char × ℚ) → List (List Char × ℚ)
  | [] => [a]
  | b :: bs => if a.2 ≤ b.2 then b :: insertDescQ a bs else a :: b :: bs

def sortDescQ : List (List Char × ℚ) → List (List Char × ℚ)
  | [] => []
  | a :: rest => insertDescQ a (sortDescQ rest)

def sumProfitSym (rows : List TradeRow) (sym : List Char) : ℚ :=
  ((rows.filter (fun r => r.symbol = sym)).map (fun r => r.profit)).sum

def hourOfRow (r : TradeRow) : Nat :=
  match r.t with
  | some d => d.hour
  | none => 0

def sumProfitHour (rows : List TradeRow) (h : Nat) : ℚ :=
  ((rows.filter (fun r => hourOfRow r = h)).map (fun r => r.profit)).sum

structure Charts where
  equity_curve : List ECPoint
  profit_by_symbol : List SymPoint
  profit_by_hour : List HourPoint
deriving DecidableEq, Repr

/-- `_build_charts`. -/
def build_charts (rows : List TradeRow) : Charts :=
  if rows = [] then ⟨[], [], []⟩
  else
    let df := sortIfAnyT rows
    let equity := ecBuild 0 0 (df.map (fun r => r.profit))
    let syms := sortStrAsc ((df.map (fun r => r.symbol)).dedup)
    let symPairs := sortDescQ (syms.map (fun s => (s, sumProfitSym df s)))
    let bySymbol := symPairs.map (fun p => SymPoint.mk p.1 (pyRound 2 p.2))
    let withT := df.filter (fun r => r.t.isSome)
    let hrs := sortNatAsc ((withT.map hourOfRow).dedup)
    let byHour := hrs.map (fun h => HourPoint.mk h (pyRound 2 (sumProfitHour withT h)))
    ⟨equity, bySymbol, byHour⟩

def bytesStart : List Nat → List Nat → Bool
  | [], _ => true
  | _ :: _, [] => false
  | p :: ps, b :: bs => p = b && bytesStart ps bs

def isCont (b : Nat) : Bool := 128 ≤ b && b ≤ 191

/-- UTF-16 little endian decoding with `errors="ignore"`: malformed units
(lone surrogates, truncated tails) are dropped.  Fuel, passed as
`length + 1` by the wrapper, never runs out: every call consumes input. -/
def utf16leF : Nat → List Nat → List Char
  | 0, _ => []
  | fuel + 1, b0 :: b1 :: rest =>
    let u := b0 + 256 * b1
    if 55296 ≤ u && u ≤ 56319 then
      match rest with
      | c0 :: c1 :: rest2 =>
        let v := c0 + 256 * c1
        if 56320 ≤ v && v ≤ 57343 then
          Char.ofNat (65536 + (u - 55296) * 1024 + (v - 56320)) :: utf16leF fuel rest2
        else utf16leF fuel rest
      | _ => []
    else if 56320 ≤ u && u ≤ 57343 then utf16leF fuel rest
    else Char.ofNat u :: utf16leF fuel rest
  | _ + 1, _ => []

def utf16leD (raw : List Nat) : List Char := utf16leF (raw.length + 1) raw

/-- UTF-16 big endian decoding with `errors="ignore"`. -/
def utf16beF : Nat → List Nat → List Char
  | 0, _ => []
  | fuel + 1, b0 :: b1 :: rest =>
    let u := 256 * b0 + b1
    if 55296 ≤ u && u ≤ 56319 then
      match rest with
      | c0 :: c1 :: rest2 =>
        let v := 256 * c0 + c1
        if 56320 ≤ v && v ≤ 57343 then
          Char.ofNat (65536 + (u - 55296) * 1024 + (v - 56320)) :: utf16beF fuel rest2
        else utf16beF fuel rest
      | _ => []
    else if 56320 ≤ u && u ≤ 57343 then utf16beF fuel rest
    else Char.ofNat u :: utf16beF fuel rest
  | _ + 1, _ => []

def utf16beD (raw : List Nat) : List Char := utf16beF (raw.length + 1) raw

/-- UTF-8 decoding with `errors="ignore"`: an invalid start byte is
skipped, a sequence broken at a continuation byte is dropped up to the
offending byte, a truncated tail is dropped. -/
def utf8F : Nat → List Nat → List Char
  | 0, _ => []
  | _ + 1, [] => []
  | fuel + 1, b :: rest =>
    if b ≤ 127 then Char.ofNat b :: utf8F fuel rest
    else if 194 ≤ b && b ≤ 223 then
      match rest with
      | c :: rest2 =>
        if isCont c then Char.ofNat ((b - 192) * 64 + (c - 128)) :: utf8F fuel rest2
        else utf8F fuel rest
      | [] => []
    else if 224 ≤ b && b ≤ 239 then
      match rest with
      | c1 :: rest2 =>
        let ok1 := if b = 224 then 160 ≤ c1 && c1 ≤ 191
                   else if b = 237 then 128 ≤ c1 && c1 ≤ 159
                   else isCont c1
        if ok1 then
          match rest2 with
          | c2 :: rest3 =>
            if isCont c2 then
              Char.ofNat ((b - 224) * 4096 + (c1 - 128) * 64 + (c2 - 128)) :: utf8F fuel rest3
            else utf8F fuel rest2
          | [] => []
        else utf8F fuel rest
      | [] => []
    else if 240 ≤ b && b ≤ 244 then
      match rest with
      | c1 :: rest2 =>
        let ok1 := if b = 240 then 144 ≤ c1 && c1 ≤ 191
                   else if b = 244 then 128 ≤ c1 && c1 ≤ 143
                   else isCont c1
        if ok1 then
          match rest2 with
          | c2 :: rest3 =>
            if isCont c2 then
              match rest3 with
              | c3 :: rest4 =>
                if isCont c3 then
                  Char.ofNat ((b - 240) * 262144 + (c1 - 128) * 4096 +
                    (c2 - 128) * 64 + (c3 - 128)) :: utf8F fuel rest4
                else utf8F fuel rest3
              | [] => []
            else utf8F fuel rest2
          | [] => []
        else utf8F fuel rest
      | [] => []
    else utf8F fuel rest

def utf8D (raw : List Nat) : List Char := utf8F (raw.length + 1) raw

/-- Strip residual null characters (`txt.replace("\x00", "")`). -/
def stripNul (s : List Char) : List Char :=
  s.filter (fun c => c.toNat ≠ 0)

/-- `_read_html_robust` on the raw bytes: BOM dispatch, the 5 percent
null-byte heuristic (exact-rational form of the float comparison), and a
final null strip.  The `utf-16-le` and `utf-16-be` codecs keep a leading
BOM as U+FEFF; only `utf-8-sig` strips it. -/
def read_html_robust (raw : List Nat) : List Char :=
  if raw = [] then []
  else if bytesStart [255, 254] raw then stripNul (utf16leD raw)
  else if bytesStart [254, 255] raw then stripNul (utf16beD raw)
  else if bytesStart [239, 187, 191] raw then stripNul (utf8D (raw.drop 3))
  else if raw.length < 20 * raw.count 0 then stripNul (utf16leD raw)
  else stripNul (utf8D raw)

/-- Python `x or 0` on an optional integer field. -/
def orZ (o : Option ℤ) : ℤ :=
  match o with
  | some v => v
  | none => 0

/-- Python `x or 0.0` on an optional float field. -/
def orQ (o : Option ℚ) : ℚ :=
  match o with
  | some v => v
  | none => 0

/-- A result dictionary: one optional slot per key the pipeline can set;
a key absent from the Python dict is `none`.  The `error` key is the
`errMsg` field. -/
structure ResultDict where
  data_source : Option (List Char)
  errMsg : Option (List Char)
  total_trades : Option ℤ
  total_profit : Option ℚ
  wins : Option ℤ
  losses : Option ℤ
  winrate : Option ℚ
  equity_curve : Option (List ECPoint)
  profit_by_symbol : Option (List SymPoint)
  profit_by_hour : Option (List HourPoint)
  monthly_profit : Option (List MonthPoint)
  balance : Option ℚ
  equity : Option ℚ
  margin : Option ℚ
  free_margin : Option ℚ
  chart_debug : Option PosDbg
deriving DecidableEq, Repr

def noneDict : ResultDict :=
  ⟨none, none, none, none, none, none, none, none,
   none, none, none, none, none, none, none, none⟩

/-- State of the report file at a given path.  `absent` is the
`os.path.exists` failure; `unreadable` is a path that passes the
existence check but on which `open(path, "rb")` raises (a directory, or
a file without read permission); `content` is a readable file with the
given bytes. -/
inductive FileSt where
  | absent : FileSt
  | unreadable : FileSt
  | content : List Nat → FileSt
deriving DecidableEq, Repr

/-- Outcome of a pipeline invocation: a returned dictionary, or an
exception propagating to the caller (neither entry point has a
try/except around its file read). -/
inductive PyResult where
  | ret : ResultDict → PyResult
  | raised : PyResult
deriving DecidableEq, Repr

/-- The returned dictionary of an outcome, none when it raised. -/
def pyDict : PyResult → Option ResultDict
  | .ret d => some d
  | .raised => none

/-- The dictionary `get_html_data` builds from readable report bytes. -/
def htmlDictOfRaw (raw : List Nat) : ResultDict :=
  let html := read_html_robust raw
  if stripEnds html = [] then
    { noneDict with errMsg := some (("history.html appears empty after decoding.").data) }
  else
    let results := parse_results_summary html
    let pr := parse_positions_rows_for_charts html
    let charts := build_charts pr.1
    { noneDict with
      data_source := some (("HTML").data),
      total_trades := some (orZ results.total_trades),
      total_profit := some (pyRound 2 (orQ results.total_profit)),
      wins := some (orZ results.wins),
      losses := some (orZ results.losses),
      winrate := some (orQ results.winrate),
      equity_curve := some charts.equity_curve,
      profit_by_symbol := some charts.profit_by_symbol,
      profit_by_hour := some charts.profit_by_hour,
      monthly_profit := some [],
      chart_debug := some pr.2 }

/-- `get_html_data`, with the `history.html` location and its file state
as explicit inputs.  A missing file returns the error dictionary; a file
that exists but cannot be opened makes `open` raise inside
`_read_html_robust`, and the exception propagates. -/
def get_html_data (path : List Char) (file : FileSt) : PyResult :=
  match file with
  | .absent => .ret { noneDict with
      errMsg := some ((("history.html not found at: ").data) ++ path) }
  | .unreadable => .raised
  | .content raw => .ret (htmlDictOfRaw raw)

/-- The dictionary `analyze_user_file` builds from readable upload bytes. -/
def uploadDictOfRaw (raw : List Nat) : ResultDict :=
  let html := read_html_robust raw
  if stripEnds html = [] then
    { noneDict with errMsg := some (("File appears empty").data) }
  else
    let results := parse_results_summary html
    let pr := parse_positions_rows_for_charts html
    let charts := build_charts pr.1
    { noneDict with
      data_source := some (("UPLOADED").data),
      total_trades := some (orZ results.total_trades),
      total_profit := some (pyRound 2 (orQ results.total_profit)),
      wins := some (orZ results.wins),
      losses := some (orZ results.losses),
      winrate := some (orQ results.winrate),
      equity_curve := some charts.equity_curve,
      profit_by_symbol := some charts.profit_by_symbol,
      profit_by_hour := some charts.profit_by_hour,
      monthly_profit := some [] }

/-- `analyze_user_file`, with the uploaded file state as explicit
input.  As in the source, a missing path returns an error dictionary,
and an existing but unopenable path raises out of the unguarded
`open(file_path, "rb")`. -/
def analyze_user_file (file : FileSt) : PyResult :=
  match file with
  | .absent => .ret { noneDict with errMsg := some (("File not found").data) }
  | .unreadable => .raised
  | .content raw => .ret (uploadDictOfRaw raw)

/-- Account metadata returned by the platform. -/
structure AccInfo where
  login : ℤ
  balance : ℚ
  equity : ℚ
  margin : ℚ
  margin_free : ℚ
  profit : ℚ
deriving DecidableEq, Repr

/-- A history deal record (entry flag, symbol, realized profit, epoch
seconds). -/
structure DealRec where
  entry : ℕ
  symbol : List Char
  profit : ℚ
  time : ℕ
deriving DecidableEq, Repr

/-- Environment of the live-feed attempt: outcome of each external call
of `get_mt5_live_data`, plus the configured target account (none or zero
means no configured account, following Python truthiness). -/
structure MT5Env where
  available : Bool
  initOk : Bool
  lastErr : List Char
  account : Option AccInfo
  deals : Option (List DealRec)
  target : Option ℤ
deriving DecidableEq, Repr

/-- Proleptic-Gregorian civil date from days since the Unix epoch. -/
def civilFromDays (z0 : Nat) : Nat × Nat × Nat :=
  let z := z0 + 719468
  let era := z / 146097
  let doe := z % 146097
  let yoe := (doe - doe / 1460 + doe / 36524 - doe / 146097) / 365
  let y := yoe + era * 400
  let doy := doe - (365 * yoe + yoe / 4 - yoe / 100)
  let mp := (5 * doy + 2) / 153
  let d := doy - (153 * mp + 2) / 5 + 1
  let m := if mp < 10 then mp + 3 else mp - 9
  (if m ≤ 2 then y + 1 else y, m, d)

/-- `pd.to_datetime(t, unit="s")`: naive UTC timestamp. -/
def epochToDT (t : Nat) : DT :=
  let c := civilFromDays (t / 86400)
  ⟨c.1, c.2.1, c.2.2, t % 86400 / 3600, t % 3600 / 60, t % 60⟩

def padNum (w n : Nat) : List Char :=
  let s := (toString n).data
  List.replicate (w - s.length) '0' ++ s

def hourOfDeal (d : DealRec) : Nat := d.time % 86400 / 3600

/-- Key of the calendar month of a deal (monotone in (year, month)). -/
def monthKeyOfDeal (d : DealRec) : Nat :=
  let c := epochToDT d.time
  c.year * 12 + c.month

/-- `str(pandas.Period)` month label `YYYY-MM`. -/
def monthLabelOfKey (k : Nat) : List Char :=
  padNum 4 ((k - 1) / 12) ++ ('-' :: padNum 2 (k - (k - 1) / 12 * 12))

def insertDeal (a : DealRec) : List DealRec → List DealRec
  | [] => [a]
  | b :: bs => if b.time < a.time then b :: insertDeal a bs else a :: b :: bs

/-- `closed_deals.sort_values("time_dt")` (modelled stable). -/
def sortDeals : List DealRec → List DealRec
  | [] => []
  | a :: rest => insertDeal a (sortDeals rest)

def sumDealSym (ds : List DealRec) (s : List Char) : ℚ :=
  ((ds.filter (fun d => d.symbol = s)).map (fun d => d.profit)).sum

def sumDealHour (ds : List DealRec) (h : Nat) : ℚ :=
  ((ds.filter (fun d => hourOfDeal d = h)).map (fun d => d.profit)).sum

def sumDealMonth (ds : List DealRec) (k : Nat) : ℚ :=
  ((ds.filter (fun d => monthKeyOfDeal d = k)).map (fun d => d.profit)).sum

def dealBySymbol (ds : List DealRec) : List SymPoint :=
  let syms := sortStrAsc ((ds.map (fun d => d.symbol)).dedup)
  (sortDescQ (syms.map (fun s => (s, sumDealSym ds s)))).map
    (fun p => SymPoint.mk p.1 (pyRound 2 p.2))

def dealByHour (ds : List DealRec) : List HourPoint :=
  (sortNatAsc ((ds.map hourOfDeal).dedup)).map
    (fun h => HourPoint.mk h (pyRound 2 (sumDealHour ds h)))

def dealByMonth (ds : List DealRec) : List MonthPoint :=
  (sortNatAsc ((ds.map monthKeyOfDeal).dedup)).map
    (fun k => MonthPoint.mk (monthLabelOfKey k) (pyRound 2 (sumDealMonth ds k)))

/-- The zero-deal snapshot dictionary (`deals` none or empty): all four
account fields are present. -/
def liveZeroFull (acc : AccInfo) : ResultDict :=
  { noneDict with
    data_source := some (("MT5_LIVE").data),
    total_trades := some 0,
    total_profit := some (pyRound 2 acc.profit),
    wins := some 0,
    losses := some 0,
    winrate := some 0,
    equity_curve := some [],
    profit_by_symbol := some [],
    profit_by_hour := some [],
    monthly_profit := some [],
    balance := some (pyRound 2 acc.balance),
    equity := some (pyRound 2 acc.equity),
    margin := some (pyRound 2 acc.margin),
    free_margin := some (pyRound 2 acc.margin_free) }

/-- The snapshot dictionary of the branch where deals exist but none has
entry type out: as in the source, it carries balance and equity but no
margin and no free margin keys. -/
def liveZeroNoExit (acc : AccInfo) : ResultDict :=
  { noneDict with
    data_source := some (("MT5_LIVE").data),
    total_trades := some 0,
    total_profit := some (pyRound 2 acc.profit),
    wins := some 0,
    losses := some 0,
    winrate := some 0,
    equity_curve := some [],
    profit_by_symbol := some [],
    profit_by_hour := some [],
    monthly_profit := some [],
    balance := some (pyRound 2 acc.balance),
    equity := some (pyRound 2 acc.equity) }

/-- The full live statistics dictionary for a non-empty exit-deal list. -/
def liveFull (acc : AccInfo) (closed : List DealRec) : ResultDict :=
  let sorted := sortDeals closed
  let total := sorted.length
  let wins := (sorted.filter (fun d => 0 < d.profit)).length
  let losses := (sorted.filter (fun d => d.profit < 0)).length
  let total_profit := (sorted.map (fun d => d.profit)).sum
  let winrate : ℚ := if 0 < total then (wins : ℚ) / (total : ℚ) else 0
  { noneDict with
    data_source := some (("MT5_LIVE").data),
    total_trades := some (total : ℤ),
    total_profit := some (pyRound 2 total_profit),
    wins := some (wins : ℤ),
    losses := some (losses : ℤ),
    winrate := some (pyRound 4 winrate),
    equity_curve := some (ecBuild 0 0 (sorted.map (fun d => d.profit))),
    profit_by_symbol := some (dealBySymbol sorted),
    profit_by_hour := some (dealByHour sorted),
    monthly_profit := some (dealByMonth sorted),
    balance := some (pyRound 2 acc.balance),
    equity := some (pyRound 2 acc.equity),
    margin := some (pyRound 2 acc.margin),
    free_margin := some (pyRound 2 acc.margin_free) }

def mismatchMsg (login target : ℤ) : List Char :=
  (("Wrong account (").data) ++ (toString login).data ++
  ((("), need ").data) ++ (toString target).data)

/-- The deal-handling tail of `get_mt5_live_data` after the account
checks pass. -/
def liveRest (env : MT5Env) (acc : AccInfo) : Option ResultDict × Option (List Char) :=
  match env.deals with
  | none => (some (liveZeroFull acc), none)
  | some ds =>
    if ds = [] then (some (liveZeroFull acc), none)
    else
      let closed := ds.filter (fun d => d.entry = 1)
      if closed = [] then (some (liveZeroNoExit acc), none)
      else (some (liveFull acc closed), none)

/-- `get_mt5_live_data`: a result dictionary or an error message. -/
def get_mt5_live_data (env : MT5Env) : Option ResultDict × Option (List Char) :=
  if ¬ env.available then (none, some (("MetaTrader5 package not installed").data))
  else if ¬ env.initOk then (none, some ((("MT5 init failed: ").data) ++ env.lastErr))
  else
    match env.account with
    | none => (none, some (("Could not get account info").data))
    | some acc =>
      match env.target with
      | some t =>
        if t ≠ 0 && acc.login ≠ t then (none, some (mismatchMsg acc.login t))
        else liveRest env acc
      | none => liveRest env acc

/-- The `data_source: ERROR` dictionary emitted on an account mismatch. -/
def errorDict (e : List Char) : ResultDict :=
  { noneDict with
    data_source := some (("ERROR").data),
    errMsg := some e,
    total_trades := some 0,
    total_profit := some 0,
    wins := some 0,
    losses := some 0,
    winrate := some 0,
    equity_curve := some [],
    profit_by_symbol := some [],
    profit_by_hour := some [],
    monthly_profit := some [] }

/-- `get_trade_data`: live feed first; an error whose text contains
`Wrong account` suppresses the fallback; any other failure falls back to
the report file (propagating whatever that call does). -/
def get_trade_data (env : MT5Env) (path : List Char) (file : FileSt) : PyResult :=
  let r := get_mt5_live_data env
  match r.1 with
  | some d => .ret d
  | none =>
    let e := r.2.getD []
    if e ≠ [] && hasSubstr e (("Wrong account").data) then .ret (errorDict e)
    else get_html_data path file

/-- Running sums of a profit sequence at full precision (no rounding). -/
def prefixSumsQ : ℚ → List ℚ → List ℚ
  | _, [] => []
  | acc, p :: ps => (acc + p) :: prefixSumsQ (acc + p) ps

/-- The account-mismatch test of the live feed (Python truthiness of the
configured target). -/
def mismatchB (target : Option ℤ) (login : ℤ) : Bool :=
  match target with
  | some t => t ≠ 0 && login ≠ t
  | none => false

/-- A live environment where `mt5.initialize()` fails and the platform
error text contains the substring `Wrong account`. -/
def envInitWrong : MT5Env :=
  ⟨true, false, ("Wrong account").data, none, none, none⟩

/-- A live environment whose deal history has one entry-leg deal and no
exit deal (`entry = 0`), with a non-zero floating profit. -/
def envNoExit : MT5Env :=
  ⟨true, true, [], some ⟨111, 1000, 1100, 50, 950, 5⟩,
   some [⟨0, ("EURUSD").data, 5, 1000⟩], none⟩

/-- A live environment with two exit deals, one of them break-even
(profit zero), the other a win. -/
def envBreakEven : MT5Env :=
  ⟨true, true, [], some ⟨111, 1000, 1100, 50, 950, 5⟩,
   some [⟨1, ("EURUSD").data, 1, 1000000⟩, ⟨1, ("EURUSD").data, 0, 2000000⟩], none⟩

/-- A qualifying positions-table row fragment. -/
def trC5 : List Char :=
  (("<td colspan=\"2\">x</td><td>2</td><td><b>EURUSD</b></td><td>d</td>" ++
    "<td>2024.01.02 03:04:05</td><td>100.50</td>").data)

/-- Report text whose labeled win percentage is 150 percent. -/
def htmlPct150 : List Char :=
  ("Profit Trades (% of total):</td><b>7 (150.0%)</b>").data

/-- Report text carrying wins 7 and losses 3 with no percentage. -/
def htmlWins7Losses3 : List Char :=
  ("Profit Trades (% of total):</td><b>7</b> Loss Trades (% of total):</td><b>3</b>").data

theorem mem_stripNul {s : List Char} {c : Char} (h : c ∈ stripNul s) : c.toNat ≠ 0 := by
  simp only [stripNul, List.mem_filter, decide_eq_true_eq] at h
  exact h.2

/-- Claim C6: the Decoder is a total function of the byte buffer (it is
defined on every `List Nat`, so no input can raise), an empty buffer
decodes to empty text, and the returned text never contains a null
character — in particular this holds for every buffer that begins with a
UTF-16LE byte order mark, since the final null strip runs on every branch. -/
theorem c6_decoder_empty_and_no_nulls :
    read_html_robust [] = [] ∧
    ∀ raw : List Nat, ∀ c : Char, c ∈ read_html_robust raw → c.toNat ≠ 0 := by
  refine ⟨rfl, ?_⟩
  intro raw c hc
  unfold read_html_robust at hc
  split_ifs at hc
  · simp at hc
  all_goals exact mem_stripNul hc

theorem posFold_inv (l : List (List Char)) :
    (posFold l).2.2 ≤ (posFold l).2.1 ∧ (posFold l).1.length = (posFold l).2.2 := by
  induction l with
  | nil => simp [posFold]
  | cons tr rest ih =>
    cases h : rowOutcome tr <;>
      simp only [posFold, h, List.length_cons] <;>
      omega

/-- Claim C10: for every input text the positions diagnostics satisfy
`0 ≤ rows_parsed ≤ rows_seen` and the returned trade sequence has exactly
`rows_parsed` elements; when no Positions heading is found the result is
the empty sequence with both counters zero and the block flag false. -/
theorem c10_positions_diagnostics (html : List Char) :
    (0 ≤ (parse_positions_rows_for_charts html).2.rows_parsed ∧
     (parse_positions_rows_for_charts html).2.rows_parsed ≤
       (parse_positions_rows_for_charts html).2.rows_seen ∧
     (parse_positions_rows_for_charts html).1.length =
       (parse_positions_rows_for_charts html).2.rows_parsed) ∧
    (findHeadingSuffix (("Positions").data) (html.length + 1) html = none →
     parse_positions_rows_for_charts html = ([], ⟨false, 0, 0⟩)) := by
  constructor
  · by_cases hb : extract_positions_block html = []
    · simp [parse_positions_rows_for_charts, hb]
    · have hinv := posFold_inv (tr_rows (extract_positions_block html))
      simpa [parse_positions_rows_for_charts, hb] using ⟨hinv.1, hinv.2⟩
  · intro h
    simp [parse_positions_rows_for_charts, extract_positions_block, h]

/-- Claim C5: a table-row fragment yields a trade exactly when it carries
the two-column colspan marker, at least one date-time token, at least six
cells, a non-empty stripped third cell and a money-parseable last cell;
and the parsed trade takes its close timestamp from the last date-time
token, its symbol from the third cell and its profit from the last cell. -/
theorem c5_row_trade_iff (tr : List Char) :
    ((∃ t, rowOutcome tr = RowOutcome.parsedRow t) ↔
      (hasColspan2 tr = true ∧ dt_findall tr ≠ [] ∧ 6 ≤ (td_cells tr).length ∧
       strip_tags ((td_cells tr).getD 2 []) ≠ [] ∧
       parse_money (strip_tags (lastD (td_cells tr) [])) ≠ none)) ∧
    (∀ t, rowOutcome tr = RowOutcome.parsedRow t →
      t.t = parse_dt (lastD (dt_findall tr) []) ∧
      t.symbol = strip_tags ((td_cells tr).getD 2 []) ∧
      parse_money (strip_tags (lastD (td_cells tr) [])) = some t.profit) := by
  unfold rowOutcome
  split_ifs with h1 h2 h3 h4
  · exact ⟨iff_of_false (fun ⟨t, ht⟩ => ht) (fun h => absurd h2 h.2.1),
      fun t ht => ht.elim⟩
  · exact ⟨iff_of_false (fun ⟨t, ht⟩ => ht) (fun h => absurd h.2.2.1 (by omega)),
      fun t ht => ht.elim⟩
  · exact ⟨iff_of_false (fun ⟨t, ht⟩ => ht) (fun h => absurd h4 h.2.2.2.1),
      fun t ht => ht.elim⟩
  · cases hpm : parse_money (strip_tags (lastD (td_cells tr) []))
    · simp only [hpm]
      exact ⟨iff_of_false (fun ⟨t, ht⟩ => by simp at ht) (fun h => absurd rfl h.2.2.2.2),
        fun t ht => by simp at ht⟩
    · rename_i p
      simp only [hpm]
      refine ⟨⟨fun _ => ⟨h1, h2, by omega, h4, by simp⟩, fun _ => ⟨_, rfl⟩⟩, ?_⟩
      intro t ht
      cases ht
      exact ⟨rfl, rfl, rfl⟩
  · exact ⟨iff_of_false (fun ⟨t, ht⟩ => ht) (fun h => absurd h.1 h1),
      fun t ht => ht.elim⟩

theorem ecBuild_spec (ps : List ℚ) : ∀ i cum,
    (ecBuild i cum ps).length = ps.length ∧
    (ecBuild i cum ps).map ECPoint.x = List.range' (i + 1) ps.length ∧
    (ecBuild i cum ps).map ECPoint.y = (prefixSumsQ cum ps).map (pyRound 2) := by
  induction ps with
  | nil => intro i cum; simp [ecBuild, prefixSumsQ]
  | cons p ps ih =>
    intro i cum
    have h := ih (i + 1) (cum + p)
    refine ⟨?_, ?_, ?_⟩
    · simpa [ecBuild] using h.1
    · simpa [ecBuild, prefixSumsQ, List.range'_succ] using h.2.1
    · simpa [ecBuild, prefixSumsQ] using h.2.2

theorem insertRow_length (a : TradeRow) (l : List TradeRow) :
    (insertRow a l).length = l.length + 1 := by
  induction l with
  | nil => rfl
  | cons b bs ih => simp only [insertRow]; split <;> simp [ih]

theorem sortRows_length (l : List TradeRow) : (sortRows l).length = l.length := by
  induction l with
  | nil => rfl
  | cons a rest ih => simp [sortRows, insertRow_length, ih]

theorem sortIfAnyT_length (l : List TradeRow) : (sortIfAnyT l).length = l.length := by
  unfold sortIfAnyT
  split <;> simp [sortRows_length]

/-- Claim C4: for N parsed closed trades the equity curve has exactly N
points, the x values are 1..N in order, and each y value is the running
full-precision sum of the (time-sorted) profits rounded to two decimal
places only at emission. -/
theorem c4_equity_curve (rows : List TradeRow) :
    (build_charts rows).equity_curve.length = rows.length ∧
    (build_charts rows).equity_curve.map ECPoint.x = List.range' 1 rows.length ∧
    (build_charts rows).equity_curve.map ECPoint.y =
      (prefixSumsQ 0 ((sortIfAnyT rows).map (fun r => r.profit))).map (pyRound 2) := by
  unfold build_charts
  split_ifs with h
  · subst h
    simp [sortIfAnyT, prefixSumsQ]
  · have hl : ((sortIfAnyT rows).map (fun r => r.profit)).length = rows.length := by
      simp [sortIfAnyT_length]
    have hspec := ecBuild_spec ((sortIfAnyT rows).map (fun r => r.profit)) 0 0
    rw [hl] at hspec
    exact hspec

theorem startsWith_append_of (p a b : List Char) (h : startsWith p a = true) :
    startsWith p (a ++ b) = true := by
  induction p generalizing a with
  | nil => rfl
  | cons x xs ih =>
    cases a with
    | nil => simp [startsWith] at h
    | cons c cs =>
      simp only [startsWith, Bool.and_eq_true] at h ⊢
      exact ⟨h.1, ih cs h.2⟩

theorem hasSubstr_of_startsWith (s pat : List Char) (h : startsWith pat s = true) :
    hasSubstr s pat = true := by
  unfold hasSubstr
  rw [h]
  simp

theorem mismatchMsg_ne_nil (l t : ℤ) : mismatchMsg l t ≠ [] := by
  intro h
  have h1 : (("Wrong account (").data) ++ (toString l).data = [] :=
    (List.append_eq_nil.mp h).1
  have h2 : (("Wrong account (").data) = ([] : List Char) :=
    (List.append_eq_nil.mp h1).1
  exact absurd h2 (by decide)

theorem mismatchMsg_has_wrong (l t : ℤ) :
    hasSubstr (mismatchMsg l t) (("Wrong account").data) = true := by
  refine hasSubstr_of_startsWith _ _ ?_
  exact startsWith_append_of _ _ _ (startsWith_append_of _ _ _ (by decide))

/-- Every run of the live adapter ends in exactly one of the four return
shapes: a full-field zero snapshot, the reduced no-exit snapshot, full
statistics, or a non-empty error message. -/
theorem live_shape (env : MT5Env) :
    (∃ acc, get_mt5_live_data env = (some (liveZeroFull acc), none)) ∨
    (∃ acc, get_mt5_live_data env = (some (liveZeroNoExit acc), none)) ∨
    (∃ acc closed, get_mt5_live_data env = (some (liveFull acc closed), none)) ∨
    (∃ m, get_mt5_live_data env = (none, some m) ∧ m ≠ []) := by
  rcases env with ⟨av, ini, le, acct, dls, tgt⟩
  cases av with
  | false =>
    exact Or.inr (Or.inr (Or.inr ⟨(("MetaTrader5 package not installed").data),
      by simp [get_mt5_live_data], by decide⟩))
  | true =>
  cases ini with
  | false =>
    refine Or.inr (Or.inr (Or.inr ⟨(("MT5 init failed: ").data) ++ le,
      by simp [get_mt5_live_data], ?_⟩))
    intro h
    exact absurd (List.append_eq_nil.mp h).1 (by decide)
  | true =>
  cases acct with
  | none =>
    exact Or.inr (Or.inr (Or.inr ⟨(("Could not get account info").data),
      by simp [get_mt5_live_data], by decide⟩))
  | some acc =>
  have hrest : ∀ tgt2 : Option ℤ,
      get_mt5_live_data ⟨true, true, le, some acc, dls, tgt2⟩ = liveRest ⟨true, true, le, some acc, dls, tgt2⟩ acc →
      (∃ a, get_mt5_live_data ⟨true, true, le, some acc, dls, tgt2⟩ = (some (liveZeroFull a), none)) ∨
      (∃ a, get_mt5_live_data ⟨true, true, le, some acc, dls, tgt2⟩ = (some (liveZeroNoExit a), none)) ∨
      (∃ a closed, get_mt5_live_data ⟨true, true, le, some acc, dls, tgt2⟩ =
        (some (liveFull a closed), none)) ∨
      (∃ m, get_mt5_live_data ⟨true, true, le, some acc, dls, tgt2⟩ = (none, some m) ∧ m ≠ []) := by
    intro tgt2 heq
    rw [heq]
    unfold liveRest
    cases dls with
    | none => exact Or.inl ⟨acc, rfl⟩
    | some ds =>
      by_cases hds : ds = []
      · exact Or.inl ⟨acc, by simp [hds]⟩
      · by_cases hcl : ds.filter (fun d => d.entry = 1) = []
        · exact Or.inr (Or.inl ⟨acc, by simp [hds, hcl]⟩)
        · exact Or.inr (Or.inr (Or.inl ⟨acc, ds.filter (fun d => d.entry = 1),
            by simp [hds, hcl]⟩))
  cases tgt with
  | none => exact hrest none (by simp [get_mt5_live_data])
  | some t =>
    by_cases h0 : t = 0
    · exact hrest (some t) (by simp [get_mt5_live_data, h0])
    · by_cases hl : acc.login = t
      · exact hrest (some t) (by simp [get_mt5_live_data, h0, hl])
      · refine Or.inr (Or.inr (Or.inr ⟨mismatchMsg acc.login t,
          by simp [get_mt5_live_data, h0, hl], mismatchMsg_ne_nil acc.login t⟩))

/-- Claim C9: the live adapter always returns exactly one set component:
a result paired with none on success, or none paired with a non-empty
error message on every failure path. -/
theorem c9_live_result_xor_error (env : MT5Env) :
    (∃ d, get_mt5_live_data env = (some d, none)) ∨
    (∃ m, get_mt5_live_data env = (none, some m) ∧ m ≠ []) := by
  rcases live_shape env with ⟨acc, h⟩ | ⟨acc, h⟩ | ⟨acc, closed, h⟩ | ⟨m, h, hm⟩
  exacts [Or.inl ⟨_, h⟩, Or.inl ⟨_, h⟩, Or.inl ⟨_, h⟩, Or.inr ⟨m, h, hm⟩]

theorem htmlDictOfRaw_shape (raw : List Nat) :
    (htmlDictOfRaw raw).data_source.isSome ∨ (htmlDictOfRaw raw).errMsg.isSome := by
  unfold htmlDictOfRaw
  by_cases h : stripEnds (read_html_robust raw) = [] <;> simp [h]

theorem uploadDictOfRaw_shape (raw : List Nat) :
    (uploadDictOfRaw raw).data_source.isSome ∨ (uploadDictOfRaw raw).errMsg.isSome := by
  unfold uploadDictOfRaw
  by_cases h : stripEnds (read_html_robust raw) = [] <;> simp [h]

theorem get_html_data_shape (path : List Char) (file : FileSt) :
    (∃ d, get_html_data path file = .ret d ∧ (d.data_source.isSome ∨ d.errMsg.isSome)) ∨
    (get_html_data path file = .raised ∧ file = .unreadable) := by
  cases file with
  | absent => exact Or.inl ⟨_, rfl, Or.inr (by simp)⟩
  | unreadable => exact Or.inr ⟨rfl, rfl⟩
  | content raw => exact Or.inl ⟨_, rfl, htmlDictOfRaw_shape raw⟩

theorem analyze_user_file_shape (file : FileSt) :
    (∃ d, analyze_user_file file = .ret d ∧ (d.data_source.isSome ∨ d.errMsg.isSome)) ∨
    (analyze_user_file file = .raised ∧ file = .unreadable) := by
  cases file with
  | absent => exact Or.inl ⟨_, rfl, Or.inr (by simp)⟩
  | unreadable => exact Or.inr ⟨rfl, rfl⟩
  | content raw => exact Or.inl ⟨_, rfl, uploadDictOfRaw_shape raw⟩

/-- The claim of C3 as stated is false on the code: neither entry point
has a try/except, and both call `open` after the existence check, so an
existing but unopenable path (a directory, a file without read
permission) raises to the caller, on `analyze_user_file` directly and on
the report-fallback path of `get_trade_data`. -/
theorem c3_open_failure_counterexample :
    analyze_user_file FileSt.unreadable = PyResult.raised ∧
    get_trade_data ⟨false, false, [], none, none, none⟩ [] FileSt.unreadable =
      PyResult.raised := by
  exact ⟨rfl, by decide⟩

/-- Claim C3 amended: every failure other than an unopenable existing
file is communicated through the returned dictionary shape (a
`data_source` key on success, including the mismatch ERROR dictionary,
or an `error` key on failure) — in particular a missing report file, a
file that decodes to blank text, and arbitrary malformed content never
raise; the single raising path of either entry point is the unguarded
`open` on a file that exists but cannot be read. -/
theorem c3_error_shape_amended (env : MT5Env) (path : List Char) (file ufile : FileSt) :
    ((∃ d, get_trade_data env path file = .ret d ∧
        (d.data_source.isSome ∨ d.errMsg.isSome)) ∨
      (get_trade_data env path file = .raised ∧ file = .unreadable)) ∧
    ((∃ d, analyze_user_file ufile = .ret d ∧
        (d.data_source.isSome ∨ d.errMsg.isSome)) ∨
      (analyze_user_file ufile = .raised ∧ ufile = .unreadable)) := by
  refine ⟨?_, analyze_user_file_shape ufile⟩
  unfold get_trade_data
  rcases live_shape env with ⟨acc, h⟩ | ⟨acc, h⟩ | ⟨acc, closed, h⟩ | ⟨m, h, hm⟩ <;>
    rw [h]
  · exact Or.inl ⟨_, rfl, Or.inl (by simp [liveZeroFull, noneDict])⟩
  · exact Or.inl ⟨_, rfl, Or.inl (by simp [liveZeroNoExit, noneDict])⟩
  · exact Or.inl ⟨_, rfl, Or.inl (by simp [liveFull, noneDict])⟩
  · simp only [Option.getD_some]
    split_ifs with hc
    · exact Or.inl ⟨_, rfl, Or.inl (by simp [errorDict, noneDict])⟩
    · exact get_html_data_shape path file

/-- The claim of C1 as stated is false on the code: the fallback decision
tests whether the error text contains the substring `Wrong account`, so
an init failure whose platform error text contains that substring is
returned as the ERROR dictionary and does not fall back to the report
file, even though a readable report file exists. -/
theorem c1_fallback_counterexample :
    get_trade_data envInitWrong [] (FileSt.content []) =
      PyResult.ret (errorDict ((("MT5 init failed: ").data) ++ (("Wrong account").data))) ∧
    get_html_data [] (FileSt.content []) ≠
      PyResult.ret (errorDict ((("MT5 init failed: ").data) ++ (("Wrong account").data))) := by
  with_unfolding_all decide

/-- Claim C1 amended: an account mismatch yields the ERROR dictionary
carrying the mismatch message with no fallback, whatever report file
exists.  An init failure whose platform error text contains the literal
`Wrong account` is likewise returned as the ERROR dictionary with no
fallback, because the code dispatches on that substring.  The remaining
live-feed failures fall back to the report-file result: package missing,
no account info, and an init failure whose error text does not contain
the substring. -/
theorem c1_mismatch_no_fallback (env : MT5Env) (path : List Char)
    (file : FileSt) (acc : AccInfo) (t : ℤ) :
    (env.available = true → env.initOk = true → env.account = some acc →
     env.target = some t → t ≠ 0 → acc.login ≠ t →
     get_trade_data env path file = .ret (errorDict (mismatchMsg acc.login t)) ∧
     (errorDict (mismatchMsg acc.login t)).data_source = some (("ERROR").data) ∧
     (errorDict (mismatchMsg acc.login t)).errMsg = some (mismatchMsg acc.login t)) ∧
    (env.available = true → env.initOk = false →
     hasSubstr ((("MT5 init failed: ").data) ++ env.lastErr) (("Wrong account").data) = true →
     get_trade_data env path file =
       .ret (errorDict ((("MT5 init failed: ").data) ++ env.lastErr))) ∧
    ((env.available = false ∨
      (env.available = true ∧ env.initOk = false ∧
       hasSubstr ((("MT5 init failed: ").data) ++ env.lastErr) (("Wrong account").data) = false) ∨
      (env.available = true ∧ env.initOk = true ∧ env.account = none)) →
     get_trade_data env path file = get_html_data path file) := by
  rcases env with ⟨av, ini, le, acct, dls, tgt⟩
  refine ⟨?_, ?_, ?_⟩
  · intro hav hini hacct htgt ht0 hlt
    simp only at hav hini hacct htgt
    subst hav hini hacct htgt
    have hlive : get_mt5_live_data ⟨true, true, le, some acc, dls, some t⟩ =
        (none, some (mismatchMsg acc.login t)) := by
      simp [get_mt5_live_data, ht0, hlt]
    refine ⟨?_, rfl, rfl⟩
    unfold get_trade_data
    rw [hlive]
    simp [mismatchMsg_ne_nil acc.login t, mismatchMsg_has_wrong acc.login t]
  · intro hav hini hsub
    simp only at hav hini
    subst hav hini
    have hlive : get_mt5_live_data ⟨true, false, le, acct, dls, tgt⟩ =
        (none, some ((("MT5 init failed: ").data) ++ le)) := by
      simp [get_mt5_live_data]
    unfold get_trade_data
    rw [hlive]
    simp at hsub
    simp [hsub]
  · intro hcase
    rcases hcase with hav | ⟨hav, hini, hsub⟩ | ⟨hav, hini, hacct⟩
    · simp only at hav
      subst hav
      have hlive : get_mt5_live_data ⟨false, ini, le, acct, dls, tgt⟩ =
          (none, some (("MetaTrader5 package not installed").data)) := by
        simp [get_mt5_live_data]
      have hns : hasSubstr (("MetaTrader5 package not installed").data)
          (("Wrong account").data) = false := by decide
      unfold get_trade_data
      rw [hlive]
      simp [hns]
    · simp only at hav hini
      subst hav hini
      have hlive : get_mt5_live_data ⟨true, false, le, acct, dls, tgt⟩ =
          (none, some ((("MT5 init failed: ").data) ++ le)) := by
        simp [get_mt5_live_data]
      unfold get_trade_data
      rw [hlive]
      simp at hsub
      simp [hsub]
    · simp only at hav hini hacct
      subst hav hini hacct
      have hlive : get_mt5_live_data ⟨true, true, le, none, dls, tgt⟩ =
          (none, some (("Could not get account info").data)) := by
        simp [get_mt5_live_data]
      have hns : hasSubstr (("Could not get account info").data)
          (("Wrong account").data) = false := by decide
      unfold get_trade_data
      rw [hlive]
      simp [hns]

theorem c1_mismatch_no_fallback_witness :
    get_trade_data ⟨true, true, [], some ⟨111, 0, 0, 0, 0, 0⟩, none, some 222⟩ []
        FileSt.absent = .ret (errorDict (mismatchMsg 111 222)) ∧
    get_trade_data envInitWrong [] FileSt.absent =
      .ret (errorDict ((("MT5 init failed: ").data) ++ (("Wrong account").data))) ∧
    get_trade_data ⟨false, false, [], none, none, none⟩ [] FileSt.absent =
      get_html_data [] FileSt.absent := by
  refine ⟨?_, ?_, ?_⟩
  · exact ((c1_mismatch_no_fallback ⟨true, true, [], some ⟨111, 0, 0, 0, 0, 0⟩, none, some 222⟩
      [] FileSt.absent ⟨111, 0, 0, 0, 0, 0⟩ 222).1 rfl rfl rfl rfl (by decide) (by decide)).1
  · exact (c1_mismatch_no_fallback envInitWrong [] FileSt.absent
      ⟨0, 0, 0, 0, 0, 0⟩ 0).2.1 rfl rfl (by decide)
  · exact (c1_mismatch_no_fallback ⟨false, false, [], none, none, none⟩ [] FileSt.absent
      ⟨0, 0, 0, 0, 0, 0⟩ 0).2.2 (Or.inl rfl)

set_option maxRecDepth 100000 in
/-- The claim of C7 as stated is false on the code: when deals exist but
none is an exit deal, the returned snapshot omits the margin and free
margin keys (and its total profit is the rounded floating profit, not
zero). -/
theorem c7_missing_margin_counterexample :
    (get_mt5_live_data envNoExit).1.isSome = true ∧
    ((get_mt5_live_data envNoExit).1.bind ResultDict.margin = none) ∧
    ((get_mt5_live_data envNoExit).1.bind (fun d => d.free_margin) = none) ∧
    ((get_mt5_live_data envNoExit).1.bind ResultDict.balance = some 1000) ∧
    ((get_mt5_live_data envNoExit).1.bind ResultDict.total_profit = some 5) := by
  with_unfolding_all decide

/-- Claim C7 amended: a successful live run with zero exit deals returns a
valid snapshot (zero trade counts, win rate zero, total profit equal to
the rounded floating account profit, empty series) carrying balance and
equity; margin and free margin are present only in the branch where the
platform returned no deals at all, and absent when deals exist but none
is an exit deal. -/
theorem c7_zero_exit_amended (env : MT5Env) (acc : AccInfo)
    (hav : env.available = true) (hini : env.initOk = true)
    (hacct : env.account = some acc)
    (hmm : mismatchB env.target acc.login = false) :
    ((env.deals = none ∨ env.deals = some []) →
      get_mt5_live_data env = (some (liveZeroFull acc), none) ∧
      (liveZeroFull acc).total_trades = some 0 ∧
      (liveZeroFull acc).wins = some 0 ∧
      (liveZeroFull acc).losses = some 0 ∧
      (liveZeroFull acc).winrate = some 0 ∧
      (liveZeroFull acc).total_profit = some (pyRound 2 acc.profit) ∧
      (liveZeroFull acc).equity_curve = some [] ∧
      (liveZeroFull acc).profit_by_symbol = some [] ∧
      (liveZeroFull acc).profit_by_hour = some [] ∧
      (liveZeroFull acc).monthly_profit = some [] ∧
      (liveZeroFull acc).balance.isSome = true ∧
      (liveZeroFull acc).equity.isSome = true ∧
      (liveZeroFull acc).margin.isSome = true ∧
      (liveZeroFull acc).free_margin.isSome = true) ∧
    (∀ ds, env.deals = some ds → ds ≠ [] →
      ds.filter (fun d => d.entry = 1) = [] →
      get_mt5_live_data env = (some (liveZeroNoExit acc), none) ∧
      (liveZeroNoExit acc).total_trades = some 0 ∧
      (liveZeroNoExit acc).wins = some 0 ∧
      (liveZeroNoExit acc).losses = some 0 ∧
      (liveZeroNoExit acc).winrate = some 0 ∧
      (liveZeroNoExit acc).total_profit = some (pyRound 2 acc.profit) ∧
      (liveZeroNoExit acc).equity_curve = some [] ∧
      (liveZeroNoExit acc).profit_by_symbol = some [] ∧
      (liveZeroNoExit acc).profit_by_hour = some [] ∧
      (liveZeroNoExit acc).monthly_profit = some [] ∧
      (liveZeroNoExit acc).balance.isSome = true ∧
      (liveZeroNoExit acc).equity.isSome = true ∧
      (liveZeroNoExit acc).margin = none ∧
      (liveZeroNoExit acc).free_margin = none) := by
  rcases env with ⟨av, ini, le, acct, dls, tgt⟩
  simp only at hav hini hacct
  subst hav hini hacct
  have hpass : get_mt5_live_data ⟨true, true, le, some acc, dls, tgt⟩ =
      liveRest ⟨true, true, le, some acc, dls, tgt⟩ acc := by
    cases tgt with
    | none => simp [get_mt5_live_data]
    | some t =>
      simp only [mismatchB, Bool.and_eq_false_iff, decide_eq_false_iff_not, not_not] at hmm
      rcases hmm with h | h <;> simp [get_mt5_live_data, h]
  constructor
  · intro hds
    refine ⟨?_, rfl, rfl, rfl, rfl, rfl, rfl, rfl, rfl, rfl, rfl, rfl, rfl, rfl⟩
    rw [hpass]
    rcases hds with h | h <;> simp only at h <;> subst h <;> simp [liveRest]
  · intro ds hds hne hfl
    refine ⟨?_, rfl, rfl, rfl, rfl, rfl, rfl, rfl, rfl, rfl, rfl, rfl, rfl, rfl⟩
    rw [hpass]
    simp only at hds
    subst hds
    simp [liveRest, hne, hfl]

theorem c7_zero_exit_amended_witness :
    get_mt5_live_data ⟨true, true, [], some ⟨111, 1000, 1100, 50, 950, 5⟩, none, none⟩ =
      (some (liveZeroFull ⟨111, 1000, 1100, 50, 950, 5⟩), none) ∧
    get_mt5_live_data envNoExit =
      (some (liveZeroNoExit ⟨111, 1000, 1100, 50, 950, 5⟩), none) ∧
    (liveZeroNoExit (⟨111, 1000, 1100, 50, 950, 5⟩ : AccInfo)).margin = none := by
  refine ⟨?_, ?_, ?_⟩
  · exact ((c7_zero_exit_amended ⟨true, true, [], some ⟨111, 1000, 1100, 50, 950, 5⟩, none, none⟩
      ⟨111, 1000, 1100, 50, 950, 5⟩ rfl rfl rfl rfl).1 (Or.inl rfl)).1
  · exact ((c7_zero_exit_amended envNoExit ⟨111, 1000, 1100, 50, 950, 5⟩ rfl rfl rfl rfl).2
      [⟨0, ("EURUSD").data, 5, 1000⟩] rfl (by decide) (by decide)).1
  · exact ((c7_zero_exit_amended envNoExit ⟨111, 1000, 1100, 50, 950, 5⟩ rfl rfl rfl rfl).2
      [⟨0, ("EURUSD").data, 5, 1000⟩] rfl (by decide) (by decide)).2.2.2.2.2.2.2.2.2.2.2.2.1

set_option maxRecDepth 100000 in
theorem c5_row_trade_iff_witness :
    (⟨("EURUSD").data, 201 / 2, some ⟨2024, 1, 2, 3, 4, 5⟩⟩ : TradeRow).t =
      parse_dt (lastD (dt_findall trC5) []) :=
  ((c5_row_trade_iff trC5).2 ⟨("EURUSD").data, 201 / 2, some ⟨2024, 1, 2, 3, 4, 5⟩⟩
    (by with_unfolding_all decide)).1

theorem c10_positions_diagnostics_witness :
    parse_positions_rows_for_charts (("no heading here").data) = ([], ⟨false, 0, 0⟩) :=
  (c10_positions_diagnostics (("no heading here").data)).2 (by decide)

set_option maxRecDepth 1000000 in
/-- The claim of C2 as stated is false on the code: on the live path a
break-even exit deal counts in the denominator, so with one win, zero
losses and one break-even deal the emitted win rate is one half while the
claimed formula `wins / (wins + losses)` gives one. -/
theorem c2_winrate_counterexample :
    ((get_mt5_live_data envBreakEven).1.bind ResultDict.winrate = some (1 / 2)) ∧
    ((get_mt5_live_data envBreakEven).1.bind ResultDict.wins = some 1) ∧
    ((get_mt5_live_data envBreakEven).1.bind ResultDict.losses = some 0) ∧
    ((1 : ℚ) / 2 ≠ 1 / (1 + 0)) := by
  with_unfolding_all decide

theorem insertDeal_perm (a : DealRec) (l : List DealRec) :
    (insertDeal a l).Perm (a :: l) := by
  induction l with
  | nil => exact List.Perm.refl _
  | cons b bs ih =>
    unfold insertDeal
    split
    · exact (ih.cons b).trans (List.Perm.swap a b bs)
    · exact List.Perm.refl _

theorem sortDeals_perm (l : List DealRec) : (sortDeals l).Perm l := by
  induction l with
  | nil => exact List.Perm.refl _
  | cons a rest ih => exact (insertDeal_perm a (sortDeals rest)).trans (ih.cons a)

theorem liveFull_winrate (acc : AccInfo) (closed : List DealRec) (hne : closed ≠ []) :
    (liveFull acc closed).winrate =
      some (pyRound 4 (((closed.filter (fun d => 0 < d.profit)).length : ℚ) /
        (closed.length : ℚ))) := by
  unfold liveFull
  have hlen : (sortDeals closed).length = closed.length := (sortDeals_perm closed).length_eq
  have hwins : ((sortDeals closed).filter (fun d => 0 < d.profit)).length =
      (closed.filter (fun d => 0 < d.profit)).length :=
    ((sortDeals_perm closed).filter _).length_eq
  have hpos : 0 < closed.length := List.length_pos.mpr hne
  simp [hlen, hwins, hpos]

/-- Claim C2 amended: on the report path the labeled percentage takes
precedence (`winRate = pct / 100`), else with both counts present and a
positive sum `winRate = wins / (wins + losses)`, else the emitted value is
zero; on the live path the win rate is `wins / total_trades` rounded to 4
decimal places, where `total_trades` counts every exit deal including
break-even ones, and is zero when no exit deals exist. -/
theorem c2_winrate_amended :
    (∀ html p,
      (extract_count_pct_after_label html (("Profit Trades (% of total):").data)).2 = some p →
      (parse_results_summary html).winrate = some (p / 100)) ∧
    (∀ html w l,
      (extract_count_pct_after_label html (("Profit Trades (% of total):").data)).2 = none →
      (extract_count_pct_after_label html (("Profit Trades (% of total):").data)).1 = some w →
      (extract_count_pct_after_label html (("Loss Trades (% of total):").data)).1 = some l →
      0 < w + l →
      (parse_results_summary html).winrate = some ((w : ℚ) / ((w : ℚ) + (l : ℚ)))) ∧
    (∀ html,
      (parse_results_summary html).winrate = none →
      orQ (parse_results_summary html).winrate = 0) ∧
    (∀ acc : AccInfo, (liveZeroFull acc).winrate = some 0 ∧
      (liveZeroNoExit acc).winrate = some 0) ∧
    (∀ acc closed, closed ≠ [] →
      (liveFull acc closed).winrate =
        some (pyRound 4 (((closed.filter (fun d => 0 < d.profit)).length : ℚ) /
          (closed.length : ℚ)))) := by
  refine ⟨?_, ?_, ?_, fun acc => ⟨rfl, rfl⟩, liveFull_winrate⟩
  · intro html p hp
    simp [parse_results_summary, hp]
  · intro html w l hp hw hl hpos
    simp [parse_results_summary, hp, hw, hl, hpos]
  · intro html h
    simp [orQ, h]

set_option maxRecDepth 100000 in
theorem c2_winrate_amended_witness :
    (parse_results_summary htmlWins7Losses3).winrate = some ((7 : ℚ) / ((7 : ℚ) + (3 : ℚ))) ∧
    (liveFull ⟨111, 1000, 1100, 50, 950, 5⟩
        [⟨1, ("EURUSD").data, 1, 1000000⟩, ⟨1, ("EURUSD").data, 0, 2000000⟩]).winrate =
      some (pyRound 4 ((1 : ℚ) / (2 : ℚ))) := by
  constructor
  · exact c2_winrate_amended.2.1 htmlWins7Losses3 7 3
      (by with_unfolding_all decide) (by with_unfolding_all decide)
      (by with_unfolding_all decide) (by decide)
  · have h := c2_winrate_amended.2.2.2.2 ⟨111, 1000, 1100, 50, 950, 5⟩
      [⟨1, ("EURUSD").data, 1, 1000000⟩, ⟨1, ("EURUSD").data, 0, 2000000⟩] (by decide)
    have hf : (([⟨1, ("EURUSD").data, 1, 1000000⟩, ⟨1, ("EURUSD").data, 0, 2000000⟩] :
        List DealRec).filter (fun d => 0 < d.profit)).length = 1 := by
      with_unfolding_all decide
    have hl : ([⟨1, ("EURUSD").data, 1, 1000000⟩, ⟨1, ("EURUSD").data, 0, 2000000⟩] :
        List DealRec).length = 2 := rfl
    rw [h, hf, hl]
    norm_num

theorem roundHalfEven_nonneg (x : ℚ) (h : 0 ≤ x) : 0 ≤ roundHalfEven x := by
  unfold roundHalfEven
  have hf : 0 ≤ ⌊x⌋ := Int.floor_nonneg.mpr h
  split_ifs <;> omega

theorem roundHalfEven_le_int (x : ℚ) (B : ℤ) (h : x ≤ (B : ℚ)) : roundHalfEven x ≤ B := by
  have hfB : ⌊x⌋ ≤ B := by
    have h2 := Int.floor_le_floor h
    simpa using h2
  have hfx : (⌊x⌋ : ℚ) ≤ x := Int.floor_le x
  unfold roundHalfEven
  split_ifs with h1 h2 h3
  · exact hfB
  · have hlt : (⌊x⌋ : ℚ) < x := by linarith
    have hltB : ⌊x⌋ < B := by exact_mod_cast lt_of_lt_of_le hlt h
    omega
  · exact hfB
  · have h12 : (1 : ℚ) / 2 ≤ x - (⌊x⌋ : ℚ) := not_lt.mp h1
    have hlt : (⌊x⌋ : ℚ) < x := by linarith
    have hltB : ⌊x⌋ < B := by exact_mod_cast lt_of_lt_of_le hlt h
    omega

theorem pyRound_unit (n : Nat) (q : ℚ) (h0 : 0 ≤ q) (h1 : q ≤ 1) :
    0 ≤ pyRound n q ∧ pyRound n q ≤ 1 := by
  have hb : (0 : ℚ) < (10 : ℚ) ^ n := by positivity
  unfold pyRound
  constructor
  · apply div_nonneg _ hb.le
    have hnn : (0 : ℤ) ≤ roundHalfEven (q * (10 : ℚ) ^ n) :=
      roundHalfEven_nonneg _ (mul_nonneg h0 hb.le)
    exact_mod_cast hnn
  · rw [div_le_one hb]
    have hle : q * (10 : ℚ) ^ n ≤ (((10 : ℤ) ^ n : ℤ) : ℚ) := by
      push_cast
      nlinarith
    have hr := roundHalfEven_le_int _ _ hle
    calc (roundHalfEven (q * (10 : ℚ) ^ n) : ℚ) ≤ (((10 : ℤ) ^ n : ℤ) : ℚ) := by
          exact_mod_cast hr
      _ = (10 : ℚ) ^ n := by push_cast; ring

set_option maxRecDepth 4000000 in
/-- The claim of C8 as stated is false on the code: a report whose labeled
win percentage reads 150 percent is emitted with winRate 1.5, outside the
unit interval. -/
theorem c8_winrate_range_counterexample :
    ((pyDict (analyze_user_file (FileSt.content (htmlPct150.map Char.toNat)))).bind
      ResultDict.winrate = some (3 / 2)) ∧
    ¬ ((3 : ℚ) / 2 ≤ 1) := by
  with_unfolding_all decide

/-- Claim C8 amended: the live-path win rate always lies in the unit
interval; the report-path emitted win rate lies in the unit interval
provided the labeled percentage, when present, lies between 0 and 100 and
the parsed win and loss counts, when used, are nonnegative. -/
theorem c8_winrate_amended :
    (∀ env d q, (get_mt5_live_data env).1 = some d → d.winrate = some q →
      0 ≤ q ∧ q ≤ 1) ∧
    (∀ html,
      (∀ p, (extract_count_pct_after_label html
        (("Profit Trades (% of total):").data)).2 = some p → 0 ≤ p ∧ p ≤ 100) →
      (∀ w, (extract_count_pct_after_label html
        (("Profit Trades (% of total):").data)).1 = some w → 0 ≤ w) →
      (∀ l, (extract_count_pct_after_label html
        (("Loss Trades (% of total):").data)).1 = some l → 0 ≤ l) →
      0 ≤ orQ (parse_results_summary html).winrate ∧
      orQ (parse_results_summary html).winrate ≤ 1) := by
  constructor
  · intro env d q hd hq
    rcases live_shape env with ⟨acc, h⟩ | ⟨acc, h⟩ | ⟨acc, closed, h⟩ | ⟨m, h, hm⟩
    · rw [h] at hd
      simp only [Option.some.injEq] at hd
      subst hd
      simp only [liveZeroFull, noneDict, Option.some.injEq] at hq
      subst hq
      norm_num
    · rw [h] at hd
      simp only [Option.some.injEq] at hd
      subst hd
      simp only [liveZeroNoExit, noneDict, Option.some.injEq] at hq
      subst hq
      norm_num
    · rw [h] at hd
      simp only [Option.some.injEq] at hd
      subst hd
      have hq2 : pyRound 4
          (if 0 < (sortDeals closed).length then
            (((sortDeals closed).filter (fun d => 0 < d.profit)).length : ℚ) /
              ((sortDeals closed).length : ℚ)
          else 0) = q := by
        exact Option.some.inj hq
      rw [← hq2]
      by_cases hp : 0 < (sortDeals closed).length
      · rw [if_pos hp]
        refine pyRound_unit 4 _ (div_nonneg (by positivity) (by positivity)) ?_
        rw [div_le_one (by exact_mod_cast hp)]
        exact_mod_cast List.length_filter_le _ _
      · rw [if_neg hp]
        exact pyRound_unit 4 0 le_rfl (by norm_num)
    · rw [h] at hd
      simp at hd
  · intro html hpct hw hl
    rcases hp : (extract_count_pct_after_label html
        (("Profit Trades (% of total):").data)).2 with _ | p
    · rcases hw1 : (extract_count_pct_after_label html
          (("Profit Trades (% of total):").data)).1 with _ | w
      · have hwr : (parse_results_summary html).winrate = none := by
          simp [parse_results_summary, hp, hw1]
        rw [hwr]
        norm_num [orQ]
      · rcases hl1 : (extract_count_pct_after_label html
            (("Loss Trades (% of total):").data)).1 with _ | l
        · have hwr : (parse_results_summary html).winrate = none := by
            simp [parse_results_summary, hp, hw1, hl1]
          rw [hwr]
          norm_num [orQ]
        · by_cases hpos : 0 < w + l
          · have hwr : (parse_results_summary html).winrate =
                some ((w : ℚ) / ((w : ℚ) + (l : ℚ))) := by
              simp [parse_results_summary, hp, hw1, hl1, hpos]
            rw [hwr]
            have h0w : (0 : ℚ) ≤ (w : ℚ) := by exact_mod_cast hw w hw1
            have h0l : (0 : ℚ) ≤ (l : ℚ) := by exact_mod_cast hl l hl1
            have hden : (0 : ℚ) < (w : ℚ) + (l : ℚ) := by
              have : (0 : ℚ) < ((w + l : ℤ) : ℚ) := by exact_mod_cast hpos
              push_cast at this
              linarith
            constructor
            · simp only [orQ]
              exact div_nonneg h0w hden.le
            · simp only [orQ]
              rw [div_le_one hden]
              linarith
          · have hwr : (parse_results_summary html).winrate = none := by
              simp [parse_results_summary, hp, hw1, hl1, hpos]
            rw [hwr]
            norm_num [orQ]
    · have hwr : (parse_results_summary html).winrate = some (p / 100) := by
        simp [parse_results_summary, hp]
      rw [hwr]
      have hb := hpct p hp
      constructor
      · simp only [orQ]
        exact div_nonneg hb.1 (by norm_num)
      · simp only [orQ]
        rw [div_le_one (by norm_num)]
        linarith [hb.2]

set_option maxRecDepth 4000000 in
theorem c8_winrate_amended_witness :
    (0 ≤ orQ (parse_results_summary htmlWins7Losses3).winrate ∧
      orQ (parse_results_summary htmlWins7Losses3).winrate ≤ 1) ∧
    (0 ≤ (1 : ℚ) / 2 ∧ (1 : ℚ) / 2 ≤ 1) := by
  constructor
  · refine c8_winrate_amended.2 htmlWins7Losses3 ?_ ?_ ?_
    · intro p hp
      have hn : (extract_count_pct_after_label htmlWins7Losses3
          (("Profit Trades (% of total):").data)).2 = none := by
        with_unfolding_all decide
      rw [hn] at hp
      exact Option.noConfusion hp
    · intro w hwv
      have h7 : (extract_count_pct_after_label htmlWins7Losses3
          (("Profit Trades (% of total):").data)).1 = some 7 := by
        with_unfolding_all decide
      rw [h7] at hwv
      cases hwv
      decide
    · intro l hlv
      have h3 : (extract_count_pct_after_label htmlWins7Losses3
          (("Loss Trades (% of total):").data)).1 = some 3 := by
        with_unfolding_all decide
      rw [h3] at hlv
      cases hlv
      decide
  · exact c8_winrate_amended.1 envBreakEven
      (liveFull ⟨111, 1000, 1100, 50, 950, 5⟩
        [⟨1, ("EURUSD").data, 1, 1000000⟩, ⟨1, ("EURUSD").data, 0, 2000000⟩])
      ((1 : ℚ) / 2)
      (by with_unfolding_all decide)
      (by with_unfolding_all decide)

end Analyze
